import Mathlib

/-!
# Hyperledger Fabric client: block index, batch submit and sample flow

Shallow embedding of `src/server.js` (the HTTP handlers `/all/blocks` and
`/multipleadd`) and of `src/index.js` (the gateway sample flow `main`).

The ledger, the protobuf decoders, the IPFS client and the file system are
outside the repository; they are taken as parameters (records of functions
returning `Except JsError _`), so every theorem holds for every behaviour of
those collaborators.  Every handler is a pure function from such an
environment to an outcome that records, in order, the remote calls that were
issued, the HTTP response that was sent (if any) and what was logged.
-/

namespace Fabric

/-! ## Common data -/

/-- A thrown JavaScript `Error`, identified by its message. -/
structure JsError where
  message : String
deriving DecidableEq, Repr

/-- Byte buffers (`Uint8Array`). -/
abbrev Bytes := List Nat

/-- Two's complement reading of the low 32 bits of `w` (a signed 32-bit word). -/
def toInt32 (w : Nat) : Int :=
  if w % 2 ^ 32 < 2 ^ 31 then ((w % 2 ^ 32 : Nat) : Int) else ((w % 2 ^ 32 : Nat) : Int) - 2 ^ 32

/-- Value of a 64-bit protobuf integer as the decoder hands it over: a `Long`
object holding two signed 32-bit words. -/
structure Long where
  low : Int
  high : Int
deriving DecidableEq, Repr

/-- The `Long` that represents the unsigned 64-bit value `v`. -/
def Long.fromValue (v : Nat) : Long :=
  { low := toInt32 v, high := toInt32 (v / 2 ^ 32) }

/-- Decoded `common.BlockchainInfo` message. -/
structure BlockchainInfo where
  height : Long
  currentBlockHash : Bytes
  previousBlockHash : Bytes
deriving DecidableEq, Repr

/-- Decoded `common.BlockHeader`. -/
structure BlockHeader where
  number : Nat
  previousHash : Bytes
  dataHash : Bytes
deriving DecidableEq, Repr, Inhabited

/-- Decoded `common.BlockData`: the raw transaction envelopes of a block, in order. -/
structure BlockData where
  data : List Bytes
deriving DecidableEq, Repr, Inhabited

/-- Decoded `common.BlockMetadata`. -/
structure BlockMetadata where
  metadata : List Bytes
deriving DecidableEq, Repr, Inhabited

/-- Decoded `common.Block`.  The three fields are messages: the decoder leaves
a field `null` (`none`) when the payload does not carry it, so a payload of
zero bytes decodes to a block whose three fields are all `null`. -/
structure Block where
  header : Option BlockHeader
  data : Option BlockData
  metadata : Option BlockMetadata
deriving DecidableEq, Repr, Inhabited

/-- One remote call on a contract: chaincode name, transaction name, arguments. -/
structure Call where
  chaincode : String
  fcn : String
  args : List String
deriving DecidableEq, Repr

/-- A contract handle of the `fabric-network` API. -/
structure Contract where
  evaluateTransaction : String → List String → Except JsError Bytes
  submitTransaction : String → List String → Except JsError Bytes

/-- The `network` object returned by `connectToNetwork`. -/
structure Network where
  getContract : String → Contract

/-- The object `assetData` that `createMultipleAssets` stores off-chain. -/
structure AssetData where
  ID : String
  Color : String
  Size : String
  Owner : String
  AppraisedValue : String
  timestamp : String
deriving DecidableEq, Repr

/-- Everything `server.js` reaches outside of itself.  `connectToNetwork` is
the outcome of the function of that name; `ipfsAdd data` is what
`client.add(JSON.stringify(data))` followed by `.toString()` yields;
`randomUUID i` and `isoTimestamp i` are the values `randomUUID()` and
`new Date().toISOString()` take in iteration `i`. -/
structure Server where
  connectToNetwork : Except JsError Network
  decodeBlockchainInfo : Bytes → Except JsError BlockchainInfo
  decodeBlock : Bytes → Except JsError Block
  ipfsAdd : AssetData → Except JsError String
  randomUUID : Nat → String
  isoTimestamp : Nat → String

/-! ## `app.get("/all/blocks")` -/

/-- Element pushed on `transactions`: `{ txId: i, transaction: block.data.data }`. -/
structure TransactionEntry where
  txId : Nat
  transaction : List Bytes
deriving DecidableEq, Repr

/-- Element pushed on `blocks`. -/
structure BlockEntry where
  blockId : Nat
  blockHeader : Option BlockHeader
  blockData : Option BlockData
  metadata : Option BlockMetadata
deriving DecidableEq, Repr

/-- The `data` object of the JSON body. -/
structure IndexData where
  blocksLength : Nat
  transactionsLength : Nat
  transactions : List TransactionEntry
  blocks : List BlockEntry
deriving DecidableEq, Repr

/-- JSON body passed to `res.json`. -/
structure IndexResponse where
  data : IndexData
  success : Bool
deriving DecidableEq, Repr

/-- What one run of the handler did: the ledger calls it issued (in order),
the body it sent with `res.json` (`none`: no response was sent), and the
errors it wrote with `console.error`. -/
structure IndexOutcome where
  calls : List Call
  response : Option IndexResponse
  logged : List JsError
deriving DecidableEq, Repr

/-- The call `evaluateTransaction("GetChainInfo", "mychannel")` on `qscc`. -/
def chainInfoCall : Call :=
  { chaincode := "qscc", fcn := "GetChainInfo", args := ["mychannel"] }

/-- The call `evaluateTransaction("GetBlockByNumber", "mychannel", String(i))` on `qscc`. -/
def blockCall (i : Nat) : Call :=
  { chaincode := "qscc", fcn := "GetBlockByNumber", args := ["mychannel", toString i] }

/-- The `TypeError` thrown by `block.data.data` when `block.data` is `null`. -/
def nullDataError : JsError :=
  { message := "TypeError: Cannot read properties of null (reading \x27data\x27)" }

/-- Local variables of the handler that the loop updates. -/
structure IndexState where
  calls : List Call
  transactions : List TransactionEntry
  blocks : List BlockEntry
deriving DecidableEq, Repr

/-- How the loop ended: the final variables and the error thrown, if any. -/
structure LoopResult where
  state : IndexState
  thrown : Option JsError
deriving DecidableEq, Repr

/-- The loop `for (let i = 0; i <= latestBlockNum; i++) { ... }` of the handler,
started at counter `i`.  The first argument bounds the number of iterations;
`none` means the bound was too small.  An iteration throws when the retrieval
throws, when the decoder throws, or when `block.data.data` is read on a block
whose `data` is `null`; that read comes first in the body, so nothing is
pushed in such an iteration. -/
def indexLoop (srv : Server) (contract : Contract) (latestBlockNum : Int) :
    Nat → Nat → IndexState → Option LoopResult
  | 0, i, st =>
    if (i : Int) ≤ latestBlockNum then none else some { state := st, thrown := none }
  | fuel + 1, i, st =>
    if (i : Int) ≤ latestBlockNum then
      let calls := st.calls ++ [blockCall i]
      match contract.evaluateTransaction "GetBlockByNumber" ["mychannel", toString i] with
      | .error e => some { state := { st with calls := calls }, thrown := some e }
      | .ok blockBytes =>
        match srv.decodeBlock blockBytes with
        | .error e => some { state := { st with calls := calls }, thrown := some e }
        | .ok block =>
          match block.data with
          | none => some { state := { st with calls := calls }, thrown := some nullDataError }
          | some blockData =>
            indexLoop srv contract latestBlockNum fuel (i + 1)
              { calls := calls
                transactions := st.transactions ++ [{ txId := i, transaction := blockData.data }]
                blocks := st.blocks ++
                  [{ blockId := i, blockHeader := block.header, blockData := block.data,
                     metadata := block.metadata }] }
    else some { state := st, thrown := none }

/-- The handler of `GET /all/blocks`.  The `catch` clause only writes the error
to the console, so a run that throws sends no response.  The loop is given
`height.low` iterations, which `allBlocks_isSome` shows to be enough. -/
def allBlocks (srv : Server) : Option IndexOutcome :=
  match srv.connectToNetwork with
  | .error e => some { calls := [], response := none, logged := [e] }
  | .ok network =>
    let contract := network.getContract "qscc"
    match contract.evaluateTransaction "GetChainInfo" ["mychannel"] with
    | .error e => some { calls := [chainInfoCall], response := none, logged := [e] }
    | .ok chainInfoBytes =>
      match srv.decodeBlockchainInfo chainInfoBytes with
      | .error e => some { calls := [chainInfoCall], response := none, logged := [e] }
      | .ok resultJson =>
        let latestBlockNum := resultJson.height.low - 1
        match indexLoop srv contract latestBlockNum (latestBlockNum + 1).toNat 0
            { calls := [chainInfoCall], transactions := [], blocks := [] } with
        | none => none
        | some { state := st, thrown := some e } =>
          some { calls := st.calls, response := none, logged := [e] }
        | some { state := st, thrown := none } =>
          let blocksLength := st.blocks.length
          let transactionsLength := st.transactions.length
          some { calls := st.calls
                 response := some
                   { data := { blocksLength := blocksLength
                               transactionsLength := transactionsLength
                               transactions := st.transactions
                               blocks := st.blocks }
                     success := true }
                 logged := [] }

/-- Retrieval and decoding of block `i` as the loop body performs them. -/
def fetchBlock (srv : Server) (contract : Contract) (i : Nat) : Except JsError Block :=
  match contract.evaluateTransaction "GetBlockByNumber" ["mychannel", toString i] with
  | .error e => .error e
  | .ok blockBytes => srv.decodeBlock blockBytes

/-- One iteration's reads, as the loop body performs them: retrieval, decoding
and the access `block.data.data`, which throws when `block.data` is `null`. -/
def loadBlock (srv : Server) (contract : Contract) (i : Nat) :
    Except JsError (Block × BlockData) :=
  match fetchBlock srv contract i with
  | .error e => .error e
  | .ok block =>
    match block.data with
    | none => .error nullDataError
    | some blockData => .ok (block, blockData)

/-- The `transactions` element the loop pushes for block `i`. -/
def transactionEntry (i : Nat) (blockData : BlockData) : TransactionEntry :=
  { txId := i, transaction := blockData.data }

/-- The `blocks` element the loop pushes for block `i`. -/
def blockEntry (i : Nat) (block : Block) : BlockEntry :=
  { blockId := i, blockHeader := block.header, blockData := block.data,
    metadata := block.metadata }

/-- Number of `GetBlockByNumber` requests among the calls of a run. -/
def retrievals (calls : List Call) : Nat :=
  (calls.filter (fun c => c.fcn == "GetBlockByNumber")).length

/-! ## `createMultipleAssets` and `app.post("/multipleadd")` -/

/-- The JavaScript values considered for `req.body.numRequests`: a missing
field, `null`, a boolean, or an integral number.  (Strings and fractional
numbers are left out.) -/
inductive JsValue where
  | undefined
  | null
  | bool (b : Bool)
  | number (n : Int)
deriving DecidableEq, Repr

/-- Truthiness of a value (`ToBoolean`). -/
def JsValue.truthy : JsValue → Bool
  | .undefined => false
  | .null => false
  | .bool b => b
  | .number n => n != 0

/-- The expression `v || d`. -/
def JsValue.orElse (v d : JsValue) : JsValue :=
  if v.truthy then v else d

/-- Numeric conversion (`ToNumber`); `none` stands for `NaN`. -/
def JsValue.toNumber : JsValue → Option Int
  | .undefined => none
  | .null => some 0
  | .bool b => some (if b then 1 else 0)
  | .number n => some n

/-- The comparison `i < v` for a loop counter `i`. -/
def JsValue.exceeds (v : JsValue) (i : Nat) : Bool :=
  match v.toNumber with
  | none => false
  | some n => (i : Int) < n

/-- The text a template literal produces for the value. -/
def JsValue.render : JsValue → String
  | .undefined => "undefined"
  | .null => "null"
  | .bool b => if b then "true" else "false"
  | .number n => toString n

/-- Variables of `createMultipleAssets` the loop updates, with the list of the
`CreateAsset` submissions issued so far. -/
structure BatchState where
  submitted : List Call
  transactionPromises : List (Except JsError Bytes)

/-- The arguments of the `CreateAsset` submission of iteration `i`, given the
content identifier obtained for it. -/
def createAssetArgs (srv : Server) (i : Nat) (cidString : String) : List String :=
  ["asset" ++ (toString i ++ srv.randomUUID i), "white", toString (100 + i), "kAMALOv",
   toString (1300 + i), cidString]

/-- The object `assetData` of iteration `i`. -/
def assetDataOf (srv : Server) (i : Nat) : AssetData :=
  { ID := "asset" ++ (toString i ++ srv.randomUUID i)
    Color := "white"
    Size := toString (100 + i)
    Owner := "kAMALOv"
    AppraisedValue := toString (1300 + i)
    timestamp := srv.isoTimestamp i }

/-- The loop `for (let i = 0; i < numRequests; i++) { ... }` of
`createMultipleAssets`, started at counter `i`.  The first argument bounds the
number of iterations; `none` means the bound was too small.  A submission is
started and its promise is pushed without being awaited; only the off-chain
store is awaited inside the loop.  A submission that rejects while the loop is
still awaiting a later store has no handler attached yet; what the runtime
does with such a rejection depends on timing and is not part of this model,
which is exact for the runs in which no submission rejects. -/
def createLoop (srv : Server) (contract : Contract) (numRequests : JsValue) :
    Nat → Nat → BatchState → Option (BatchState × Option JsError)
  | 0, i, st => if numRequests.exceeds i then none else some (st, none)
  | fuel + 1, i, st =>
    if numRequests.exceeds i then
      let assetId := "asset" ++ (toString i ++ srv.randomUUID i)
      let color := "white"
      let size := toString (100 + i)
      let owner := "kAMALOv"
      let appraisedValue := toString (1300 + i)
      let assetData : AssetData :=
        { ID := assetId, Color := color, Size := size, Owner := owner,
          AppraisedValue := appraisedValue, timestamp := srv.isoTimestamp i }
      match srv.ipfsAdd assetData with
      | .error e => some (st, some e)
      | .ok cidString =>
        let assetContract := contract.submitTransaction "CreateAsset"
          [assetId, color, size, owner, appraisedValue, cidString]
        createLoop srv contract numRequests fuel (i + 1)
          { submitted := st.submitted ++
              [{ chaincode := "basic", fcn := "CreateAsset",
                 args := [assetId, color, size, owner, appraisedValue, cidString] }]
            transactionPromises := st.transactionPromises ++ [assetContract] }
    else some (st, none)

/-- The rejection `Promise.all` settles with, if any of the promises rejects.
`Promise.all` rejects with the rejection that happens first in time; the order
in time is not part of this model, which takes the first one in the list. The
two agree whenever at most one promise rejects, and in particular when none
does. -/
def firstRejection : List (Except JsError Bytes) → Option JsError
  | [] => none
  | .error e :: _ => some e
  | .ok _ :: rest => firstRejection rest

/-- What a run of `createMultipleAssets` did: the submissions it issued and the
error it threw, if any. -/
structure BatchResult where
  submitted : List Call
  thrown : Option JsError
deriving DecidableEq, Repr

/-- The function `createMultipleAssets`. -/
def createMultipleAssets (srv : Server) (contract : Contract) (numRequests : JsValue) :
    Option BatchResult :=
  match createLoop srv contract numRequests (numRequests.toNumber.getD 0).toNat 0
      { submitted := [], transactionPromises := [] } with
  | none => none
  | some (st, some e) => some { submitted := st.submitted, thrown := some e }
  | some (st, none) =>
    some { submitted := st.submitted, thrown := firstRejection st.transactionPromises }

/-- Body of the JSON answer of `/multipleadd`. -/
inductive AddBody where
  | message (text : String)
  | error (text : String)
deriving DecidableEq, Repr

/-- What one run of the `/multipleadd` handler did. -/
structure AddOutcome where
  submitted : List Call
  status : Nat
  body : AddBody
deriving DecidableEq, Repr

/-- The handler of `POST /multipleadd`, for the value of `req.body.numRequests`. -/
def multipleAdd (srv : Server) (numRequests : JsValue) : Option AddOutcome :=
  match srv.connectToNetwork with
  | .error e => some { submitted := [], status := 500, body := .error e.message }
  | .ok network =>
    let contract := network.getContract "basic"
    match createMultipleAssets srv contract (numRequests.orElse (.number 100)) with
    | none => none
    | some { submitted := submitted, thrown := some e } =>
      some { submitted := submitted, status := 500, body := .error e.message }
    | some { submitted := submitted, thrown := none } =>
      some { submitted := submitted, status := 200
             body := .message
               ((numRequests.orElse (.number 100)).render ++ " assets added successfully.") }

/-! ## `index.js`: the gateway sample flow -/

/-- Per-call options handed to the gateway: the gRPC deadline, in milliseconds
since the epoch. -/
structure CallOptions where
  deadline : Nat
deriving DecidableEq, Repr

/-- The gRPC client returned by `newGrpcConnection`. -/
structure Client where
  endpoint : String
deriving DecidableEq, Repr

/-- The object returned by `newIdentity`. -/
structure Identity where
  mspId : String
  credentials : Bytes
deriving DecidableEq, Repr

/-- The signer returned by `newSigner`. -/
structure Signer where
  privateKey : Bytes
deriving DecidableEq, Repr

/-- The options object `main` passes to `connect`.  Each of the four option
callbacks takes the value `Date.now()` has at the moment the gateway invokes
it.  `Date.now()` is a whole number of milliseconds below `2 ^ 53`, so the
additions are exact. -/
structure ConnectOptions where
  client : Client
  identity : Identity
  signer : Signer
  evaluateOptions : Nat → CallOptions
  endorseOptions : Nat → CallOptions
  submitOptions : Nat → CallOptions
  commitStatusOptions : Nat → CallOptions

/-- The object literal of `main`, lines 74-91. -/
def connectOptions (client : Client) (identity : Identity) (signer : Signer) : ConnectOptions :=
  { client := client
    identity := identity
    signer := signer
    evaluateOptions := fun now => { deadline := now + 5000 }
    endorseOptions := fun now => { deadline := now + 15000 }
    submitOptions := fun now => { deadline := now + 5000 }
    commitStatusOptions := fun now => { deadline := now + 60000 } }

/-- The commit status of a submitted transaction. -/
structure Status where
  transactionId : String
  successful : Bool
  code : Nat
deriving DecidableEq, Repr

/-- The object `submitAsync` resolves to. -/
structure Commit where
  getResult : Bytes
  getStatus : Except JsError Status

/-- A contract handle of the `fabric-gateway` API. -/
structure GatewayContract where
  submitTransaction : String → List String → Except JsError Bytes
  evaluateTransaction : String → List String → Except JsError Bytes
  submitAsync : String → List String → Except JsError Commit

/-- A connected gateway: `getNetwork(channel).getContract(chaincode)`. -/
structure Gateway where
  getContract : String → String → GatewayContract

/-- Everything `index.js` reaches outside of itself.  `startTime` is the value
of `Date.now()` when the module is loaded. -/
structure SampleEnv where
  startTime : Nat
  channelName : String
  chaincodeName : String
  newGrpcConnection : Except JsError Client
  newIdentity : Except JsError Identity
  newSigner : Except JsError Signer
  connect : ConnectOptions → Except JsError Gateway
  utf8Decode : Bytes → String
  jsonParse : String → Except JsError String

/-- What the sample flow does that can be observed from outside. -/
inductive MainEvent where
  | grpcConnected
  | gatewayConnected
  | submitted (fcn : String) (args : List String)
  | evaluated (fcn : String) (args : List String)
  | submittedAsync (fcn : String) (args : List String)
  | statusAwaited
  | caught (e : JsError)
  | gatewayClosed
  | clientClosed
deriving DecidableEq, Repr

/-- Run of an `async` function: the events it produced and how it settled. -/
structure Run where
  events : List MainEvent
  result : Except JsError Unit

/-- Sequencing of two awaited steps: the second runs only if the first did not throw. -/
def Run.andThen (first : Run) (next : Run) : Run :=
  match first.result with
  | .error e => { events := first.events, result := .error e }
  | .ok _ => { events := first.events ++ next.events, result := next.result }

/-- The constant `assetId`. -/
def assetId (env : SampleEnv) : String :=
  "asset" ++ toString env.startTime

/-- The function `initLedger`. -/
def initLedger (contract : GatewayContract) : Run :=
  match contract.submitTransaction "InitLedger" [] with
  | .error e => { events := [.submitted "InitLedger" []], result := .error e }
  | .ok _ => { events := [.submitted "InitLedger" []], result := .ok () }

/-- The function `getAllAssets`. -/
def getAllAssets (env : SampleEnv) (contract : GatewayContract) : Run :=
  match contract.evaluateTransaction "GetAllAssets" [] with
  | .error e => { events := [.evaluated "GetAllAssets" []], result := .error e }
  | .ok resultBytes =>
    let resultJson := env.utf8Decode resultBytes
    match env.jsonParse resultJson with
    | .error e => { events := [.evaluated "GetAllAssets" []], result := .error e }
    | .ok _ => { events := [.evaluated "GetAllAssets" []], result := .ok () }

/-- The function `createAsset`. -/
def createAsset (env : SampleEnv) (contract : GatewayContract) : Run :=
  match contract.submitTransaction "CreateAsset" [assetId env, "yellow", "5", "Tom", "1300"] with
  | .error e =>
    { events := [.submitted "CreateAsset" [assetId env, "yellow", "5", "Tom", "1300"]]
      result := .error e }
  | .ok _ =>
    { events := [.submitted "CreateAsset" [assetId env, "yellow", "5", "Tom", "1300"]]
      result := .ok () }

/-- The message of the error `transferAssetAsync` throws for a failed commit. -/
def commitFailureMessage (status : Status) : String :=
  "Transaction " ++ status.transactionId ++ " failed to commit with status code " ++
    toString status.code

/-- The function `transferAssetAsync`. -/
def transferAssetAsync (env : SampleEnv) (contract : GatewayContract) : Run :=
  match contract.submitAsync "TransferAsset" [assetId env, "Saptha"] with
  | .error e =>
    { events := [.submittedAsync "TransferAsset" [assetId env, "Saptha"]], result := .error e }
  | .ok commit =>
    let _oldOwner := env.utf8Decode commit.getResult
    match commit.getStatus with
    | .error e =>
      { events := [.submittedAsync "TransferAsset" [assetId env, "Saptha"], .statusAwaited]
        result := .error e }
    | .ok status =>
      if !status.successful then
        { events := [.submittedAsync "TransferAsset" [assetId env, "Saptha"], .statusAwaited]
          result := .error { message := commitFailureMessage status } }
      else
        { events := [.submittedAsync "TransferAsset" [assetId env, "Saptha"], .statusAwaited]
          result := .ok () }

/-- The function `readAssetByID`. -/
def readAssetByID (env : SampleEnv) (contract : GatewayContract) : Run :=
  match contract.evaluateTransaction "ReadAsset" [assetId env] with
  | .error e => { events := [.evaluated "ReadAsset" [assetId env]], result := .error e }
  | .ok resultBytes =>
    let resultJson := env.utf8Decode resultBytes
    match env.jsonParse resultJson with
    | .error e => { events := [.evaluated "ReadAsset" [assetId env]], result := .error e }
    | .ok _ => { events := [.evaluated "ReadAsset" [assetId env]], result := .ok () }

/-- The function `updateNonExistentAsset`: it catches what the submit throws. -/
def updateNonExistentAsset (contract : GatewayContract) : Run :=
  match contract.submitTransaction "UpdateAsset" ["asset70", "blue", "5", "Tomoko", "300"] with
  | .error e =>
    { events := [.submitted "UpdateAsset" ["asset70", "blue", "5", "Tomoko", "300"], .caught e]
      result := .ok () }
  | .ok _ =>
    { events := [.submitted "UpdateAsset" ["asset70", "blue", "5", "Tomoko", "300"]]
      result := .ok () }

/-- The body of the `try` block of `main`. -/
def ledgerOperations (env : SampleEnv) (gateway : Gateway) : Run :=
  let contract := gateway.getContract env.channelName env.chaincodeName
  (initLedger contract).andThen
    ((getAllAssets env contract).andThen
      ((createAsset env contract).andThen
        ((transferAssetAsync env contract).andThen
          ((readAssetByID env contract).andThen
            (updateNonExistentAsset contract)))))

/-- The function `main`.  The client, the identity, the signer and the gateway
are obtained before the `try` statement is entered; the `finally` clause closes
the gateway and the client. -/
def main (env : SampleEnv) : Run :=
  match env.newGrpcConnection with
  | .error e => { events := [], result := .error e }
  | .ok client =>
    match env.newIdentity with
    | .error e => { events := [.grpcConnected], result := .error e }
    | .ok identity =>
      match env.newSigner with
      | .error e => { events := [.grpcConnected], result := .error e }
      | .ok signer =>
        match env.connect (connectOptions client identity signer) with
        | .error e => { events := [.grpcConnected], result := .error e }
        | .ok gateway =>
          let body := ledgerOperations env gateway
          { events := [.grpcConnected, .gatewayConnected] ++ body.events ++
              [.gatewayClosed, .clientClosed]
            result := body.result }

/-! ### Sample environments -/

/-- A block with the given number and raw transaction envelopes. -/
def sampleBlock (n : Nat) (txs : List Bytes) : Block :=
  { header := some { number := n, previousHash := [], dataHash := [] }
    data := some { data := txs }
    metadata := some { metadata := [] } }

/-- A ledger whose block `i` is served as the one-byte payload `[i]` when the
argument is the decimal numeral of `i < 3`, and which fails otherwise. -/
def sampleContract : Contract :=
  { evaluateTransaction := fun fcn args =>
      if fcn = "GetChainInfo" then .ok [0]
      else if args = ["mychannel", "0"] then .ok [0]
      else if args = ["mychannel", "1"] then .ok [1]
      else if args = ["mychannel", "2"] then .ok [2]
      else .error { message := "no such block" }
    submitTransaction := fun _ _ => .ok [] }

/-- A server in front of `sampleContract` whose status reports `height`; block
`i` decodes to a block holding `i + 1` envelopes, except that block `bad`
(if any) does not decode. -/
def sampleServer (height : Nat) (bad : Option Nat) : Server :=
  { connectToNetwork := .ok { getContract := fun _ => sampleContract }
    decodeBlockchainInfo := fun _ =>
      .ok { height := Long.fromValue height, currentBlockHash := [], previousBlockHash := [] }
    decodeBlock := fun bytes =>
      match bytes with
      | [i] =>
        if bad = some i then .error { message := "index out of range" }
        else .ok (sampleBlock i (List.replicate (i + 1) [7]))
      | _ => .error { message := "index out of range" }
    ipfsAdd := fun _ => .ok "[object Object]"
    randomUUID := fun _ => "3b241101-e2bb-4255-8caf-4136c566a962"
    isoTimestamp := fun _ => "1970-01-01T00:00:00.000Z" }

/-- A server whose status reports `height` and whose ledger answers every
block request with the same payload, decoded to a block holding `txs`. -/
def uniformServer (height : Nat) (txs : List Bytes) : Server :=
  { connectToNetwork := .ok { getContract := fun _ =>
      { evaluateTransaction := fun _ _ => .ok [0], submitTransaction := fun _ _ => .ok [] } }
    decodeBlockchainInfo := fun _ =>
      .ok { height := Long.fromValue height, currentBlockHash := [], previousBlockHash := [] }
    decodeBlock := fun _ => .ok (sampleBlock 0 txs)
    ipfsAdd := fun _ => .ok "[object Object]"
    randomUUID := fun _ => "3b241101-e2bb-4255-8caf-4136c566a962"
    isoTimestamp := fun _ => "1970-01-01T00:00:00.000Z" }

/-- A server whose status reports `height` and whose ledger answers every
block request with a payload of zero bytes, which decodes to a block with no
header, no data and no metadata. -/
def emptyPayloadServer (height : Nat) : Server :=
  { connectToNetwork := .ok { getContract := fun _ =>
      { evaluateTransaction := fun _ _ => .ok [], submitTransaction := fun _ _ => .ok [] } }
    decodeBlockchainInfo := fun _ =>
      .ok { height := Long.fromValue height, currentBlockHash := [], previousBlockHash := [] }
    decodeBlock := fun _ => .ok { header := none, data := none, metadata := none }
    ipfsAdd := fun _ => .ok "[object Object]"
    randomUUID := fun _ => "3b241101-e2bb-4255-8caf-4136c566a962"
    isoTimestamp := fun _ => "1970-01-01T00:00:00.000Z" }

/-- A contract on which every transaction succeeds and whose asynchronous
submit commits with the given status. -/
def sampleGatewayContract (status : Status) : GatewayContract :=
  { submitTransaction := fun _ _ => .ok []
    evaluateTransaction := fun _ _ => .ok []
    submitAsync := fun _ _ => .ok { getResult := [84, 111, 109], getStatus := .ok status } }

/-- An environment of the sample flow in which the transport connects; the
identity is loaded only when `identityLoads` holds. -/
def sampleEnv (identityLoads : Bool) (status : Status) : SampleEnv :=
  { startTime := 1700000000000
    channelName := "mychannel"
    chaincodeName := "basic"
    newGrpcConnection := .ok { endpoint := "localhost:7051" }
    newIdentity :=
      if identityLoads then .ok { mspId := "Org1MSP", credentials := [] }
      else .error { message := "No files in directory: signcerts" }
    newSigner := .ok { privateKey := [] }
    connect := fun _ => .ok { getContract := fun _ _ => sampleGatewayContract status }
    utf8Decode := fun _ => "[]"
    jsonParse := fun _ => .ok "[]" }

/-! ### Arithmetic of the height -/

theorem toInt32_of_lt (n : Nat) (h : n < 2 ^ 31) : toInt32 n = (n : Int) := by
  unfold toInt32
  have hmod : n % 2 ^ 32 = n := Nat.mod_eq_of_lt (by omega)
  rw [hmod, if_pos h]

theorem low_fromValue_of_lt (n : Nat) (h : n < 2 ^ 31) : (Long.fromValue n).low = (n : Int) :=
  toInt32_of_lt n h

theorem retrievals_blockCalls (n : Nat) :
    retrievals (chainInfoCall :: (List.range n).map blockCall) = n := by
  unfold retrievals
  rw [List.filter_cons_of_neg (by decide)]
  rw [List.filter_eq_self.mpr]
  · simp
  · intro c hc
    obtain ⟨i, _, rfl⟩ := List.mem_map.mp hc
    rfl

/-! ### The loop -/

theorem loadBlock_of_fetch (srv : Server) (contract : Contract) (i : Nat) (block : Block)
    (blockData : BlockData) (hf : fetchBlock srv contract i = .ok block)
    (hd : block.data = some blockData) :
    loadBlock srv contract i = .ok (block, blockData) := by
  unfold loadBlock
  rw [hf]
  dsimp only
  rw [hd]

theorem loadBlock_of_fetch_error (srv : Server) (contract : Contract) (i : Nat) (e : JsError)
    (hf : fetchBlock srv contract i = .error e) :
    loadBlock srv contract i = .error e := by
  unfold loadBlock
  rw [hf]

theorem indexLoop_step_ok (srv : Server) (contract : Contract) (latestBlockNum : Int)
    (fuel i : Nat) (st : IndexState) (block : Block) (blockData : BlockData)
    (hle : (i : Int) ≤ latestBlockNum)
    (hf : loadBlock srv contract i = .ok (block, blockData)) :
    indexLoop srv contract latestBlockNum (fuel + 1) i st =
      indexLoop srv contract latestBlockNum fuel (i + 1)
        { calls := st.calls ++ [blockCall i]
          transactions := st.transactions ++ [transactionEntry i blockData]
          blocks := st.blocks ++ [blockEntry i block] } := by
  unfold loadBlock fetchBlock at hf
  rw [indexLoop, if_pos hle]
  cases hev : contract.evaluateTransaction "GetBlockByNumber" ["mychannel", toString i] with
  | error e => rw [hev] at hf; cases hf
  | ok blockBytes =>
    rw [hev] at hf
    dsimp only at hf ⊢
    cases hdec : srv.decodeBlock blockBytes with
    | error e => rw [hdec] at hf; cases hf
    | ok b =>
      rw [hdec] at hf
      dsimp only at hf ⊢
      cases hdata : b.data with
      | none => rw [hdata] at hf; cases hf
      | some d =>
        rw [hdata] at hf
        dsimp only at hf ⊢
        cases hf
        unfold transactionEntry blockEntry
        rw [hdata]

theorem indexLoop_step_error (srv : Server) (contract : Contract) (latestBlockNum : Int)
    (fuel i : Nat) (st : IndexState) (e : JsError)
    (hle : (i : Int) ≤ latestBlockNum) (hf : loadBlock srv contract i = .error e) :
    indexLoop srv contract latestBlockNum (fuel + 1) i st =
      some { state := { st with calls := st.calls ++ [blockCall i] }, thrown := some e } := by
  unfold loadBlock fetchBlock at hf
  rw [indexLoop, if_pos hle]
  cases hev : contract.evaluateTransaction "GetBlockByNumber" ["mychannel", toString i] with
  | error e1 => rw [hev] at hf; cases hf; rfl
  | ok blockBytes =>
    rw [hev] at hf
    dsimp only at hf ⊢
    cases hdec : srv.decodeBlock blockBytes with
    | error e1 => rw [hdec] at hf; cases hf; rfl
    | ok b =>
      rw [hdec] at hf
      dsimp only at hf ⊢
      cases hdata : b.data with
      | none => rw [hdata] at hf; cases hf; rfl
      | some d => rw [hdata] at hf; cases hf

theorem indexLoop_done (srv : Server) (contract : Contract) (latestBlockNum : Int)
    (fuel i : Nat) (st : IndexState) (hgt : ¬ (i : Int) ≤ latestBlockNum) :
    indexLoop srv contract latestBlockNum fuel i st = some { state := st, thrown := none } := by
  cases fuel with
  | zero => rw [indexLoop, if_neg hgt]
  | succ fuel => rw [indexLoop, if_neg hgt]

/-- The loop with all of the `n` blocks `i, ..., i + n - 1` retrievable: it ends
normally having requested them in order and pushed one entry per block. -/
theorem indexLoop_all_ok (srv : Server) (contract : Contract) (blk : Nat → Block)
    (dat : Nat → BlockData) :
    ∀ (n fuel i : Nat) (st : IndexState) (latestBlockNum : Int),
      n ≤ fuel → (latestBlockNum + 1 - (i : Int)).toNat = n →
      (∀ j, i ≤ j → j < i + n → loadBlock srv contract j = .ok (blk j, dat j)) →
      indexLoop srv contract latestBlockNum fuel i st =
        some { state :=
                 { calls := st.calls ++ (List.range' i n).map blockCall
                   transactions := st.transactions ++
                     (List.range' i n).map (fun j => transactionEntry j (dat j))
                   blocks := st.blocks ++ (List.range' i n).map (fun j => blockEntry j (blk j)) }
               thrown := none } := by
  intro n
  induction n with
  | zero =>
    intro fuel i st latestBlockNum _ hl _
    rw [indexLoop_done srv contract latestBlockNum fuel i st (by omega)]
    simp
  | succ n ih =>
    intro fuel i st latestBlockNum hfuel hl hok
    obtain ⟨fuel, rfl⟩ : ∃ f, fuel = f + 1 := ⟨fuel - 1, by omega⟩
    rw [indexLoop_step_ok srv contract latestBlockNum fuel i st (blk i) (dat i) (by omega)
      (hok i (le_refl i) (by omega))]
    rw [ih fuel (i + 1) _ latestBlockNum (by omega) (by push_cast; omega)
      (fun j h1 h2 => hok j (by omega) (by omega))]
    simp [List.range'_succ]

/-- The loop when iteration `k` is the first that throws: it stops there,
having requested blocks `i, ..., k` and nothing after `k`. -/
theorem indexLoop_first_failure (srv : Server) (contract : Contract) (blk : Nat → Block)
    (dat : Nat → BlockData) (e : JsError) :
    ∀ (d fuel i k : Nat) (st : IndexState) (latestBlockNum : Int),
      k = i + d → d < fuel → (k : Int) ≤ latestBlockNum →
      (∀ j, i ≤ j → j < k → loadBlock srv contract j = .ok (blk j, dat j)) →
      loadBlock srv contract k = .error e →
      indexLoop srv contract latestBlockNum fuel i st =
        some { state :=
                 { calls := st.calls ++ (List.range' i (d + 1)).map blockCall
                   transactions := st.transactions ++
                     (List.range' i d).map (fun j => transactionEntry j (dat j))
                   blocks := st.blocks ++ (List.range' i d).map (fun j => blockEntry j (blk j)) }
               thrown := some e } := by
  intro d
  induction d with
  | zero =>
    intro fuel i k st latestBlockNum hk hfuel hle _ hbad
    obtain ⟨fuel, rfl⟩ : ∃ f, fuel = f + 1 := ⟨fuel - 1, by omega⟩
    have hki : k = i := by omega
    subst hki
    rw [indexLoop_step_error srv contract latestBlockNum fuel k st e hle hbad]
    simp
  | succ d ih =>
    intro fuel i k st latestBlockNum hk hfuel hle hok hbad
    obtain ⟨fuel, rfl⟩ : ∃ f, fuel = f + 1 := ⟨fuel - 1, by omega⟩
    rw [indexLoop_step_ok srv contract latestBlockNum fuel i st (blk i) (dat i) (by omega)
      (hok i (le_refl i) (by omega))]
    rw [ih fuel (i + 1) k _ latestBlockNum (by omega) (by omega) hle
      (fun j h1 h2 => hok j (by omega) h2) hbad]
    simp [List.range'_succ]

/-- The iteration bound `allBlocks` passes is always enough: the loop ends. -/
theorem indexLoop_isSome (srv : Server) (contract : Contract) (latestBlockNum : Int) :
    ∀ (fuel i : Nat) (st : IndexState), (latestBlockNum + 1 - (i : Int)).toNat ≤ fuel →
      (indexLoop srv contract latestBlockNum fuel i st).isSome = true := by
  intro fuel
  induction fuel with
  | zero =>
    intro i st h
    rw [indexLoop_done srv contract latestBlockNum 0 i st (by omega)]
    rfl
  | succ fuel ih =>
    intro i st h
    by_cases hle : (i : Int) ≤ latestBlockNum
    · cases hf : loadBlock srv contract i with
      | error e => rw [indexLoop_step_error srv contract latestBlockNum fuel i st e hle hf]; rfl
      | ok pair =>
        obtain ⟨block, blockData⟩ := pair
        rw [indexLoop_step_ok srv contract latestBlockNum fuel i st block blockData hle hf]
        exact ih (i + 1) _ (by push_cast; omega)
    · rw [indexLoop_done srv contract latestBlockNum (fuel + 1) i st hle]
      rfl

/-- Whatever the ledger answers, the loop started at `i` requests the blocks
`i, i + 1, ...` in order, at most as many as remain up to `latestBlockNum`,
and all of those when no iteration throws. -/
theorem indexLoop_calls (srv : Server) (contract : Contract) (latestBlockNum : Int) :
    ∀ (fuel i : Nat) (st : IndexState) (r : LoopResult),
      indexLoop srv contract latestBlockNum fuel i st = some r →
      ∃ n : Nat, n ≤ (latestBlockNum + 1 - (i : Int)).toNat ∧
        r.state.calls = st.calls ++ (List.range' i n).map blockCall ∧
        (r.thrown = none → n = (latestBlockNum + 1 - (i : Int)).toNat) := by
  intro fuel
  induction fuel with
  | zero =>
    intro i st r h
    by_cases hle : (i : Int) ≤ latestBlockNum
    · rw [indexLoop, if_pos hle] at h
      cases h
    · rw [indexLoop_done srv contract latestBlockNum 0 i st hle] at h
      cases h
      exact ⟨0, by omega, by simp, fun _ => by omega⟩
  | succ fuel ih =>
    intro i st r h
    by_cases hle : (i : Int) ≤ latestBlockNum
    · cases hf : loadBlock srv contract i with
      | error e =>
        rw [indexLoop_step_error srv contract latestBlockNum fuel i st e hle hf] at h
        cases h
        exact ⟨1, by omega, by simp, fun hn => by cases hn⟩
      | ok pair =>
        obtain ⟨block, blockData⟩ := pair
        rw [indexLoop_step_ok srv contract latestBlockNum fuel i st block blockData hle hf] at h
        obtain ⟨n, hn, hcalls, hall⟩ := ih (i + 1) _ r h
        refine ⟨n + 1, by push_cast at hn; omega, ?_, fun hnone => ?_⟩
        · rw [hcalls]
          simp [List.range'_succ]
        · have := hall hnone
          push_cast at this
          omega
    · rw [indexLoop_done srv contract latestBlockNum (fuel + 1) i st hle] at h
      cases h
      exact ⟨0, by omega, by simp, fun _ => by omega⟩

/-! ### The handler -/

/-- The handler once the network is connected and the status is decoded: what
remains is the loop and the response. -/
theorem allBlocks_of_status (srv : Server) (network : Network) (chainInfoBytes : Bytes)
    (resultJson : BlockchainInfo)
    (hconn : srv.connectToNetwork = .ok network)
    (hinfo : (network.getContract "qscc").evaluateTransaction "GetChainInfo" ["mychannel"] =
      .ok chainInfoBytes)
    (hdec : srv.decodeBlockchainInfo chainInfoBytes = .ok resultJson) :
    allBlocks srv =
      match indexLoop srv (network.getContract "qscc") (resultJson.height.low - 1)
          (resultJson.height.low - 1 + 1).toNat 0
          { calls := [chainInfoCall], transactions := [], blocks := [] } with
      | none => none
      | some { state := st, thrown := some e } =>
        some { calls := st.calls, response := none, logged := [e] }
      | some { state := st, thrown := none } =>
        some { calls := st.calls
               response := some
                 { data := { blocksLength := st.blocks.length
                             transactionsLength := st.transactions.length
                             transactions := st.transactions
                             blocks := st.blocks }
                   success := true }
               logged := [] } := by
  unfold allBlocks
  rw [hconn]
  dsimp only
  rw [hinfo]
  dsimp only
  rw [hdec]

/-- A run in which every block below `height.low` is retrieved and decoded
with its data: the handler answers with one entry per block, requested in
ascending order. -/
theorem allBlocks_all_ok (srv : Server) (network : Network) (chainInfoBytes : Bytes)
    (resultJson : BlockchainInfo) (blk : Nat → Block) (dat : Nat → BlockData)
    (hconn : srv.connectToNetwork = .ok network)
    (hinfo : (network.getContract "qscc").evaluateTransaction "GetChainInfo" ["mychannel"] =
      .ok chainInfoBytes)
    (hdec : srv.decodeBlockchainInfo chainInfoBytes = .ok resultJson)
    (hok : ∀ i : Nat, (i : Int) < resultJson.height.low →
      loadBlock srv (network.getContract "qscc") i = .ok (blk i, dat i)) :
    allBlocks srv =
      some { calls := chainInfoCall :: (List.range resultJson.height.low.toNat).map blockCall
             response := some
               { data :=
                   { blocksLength := resultJson.height.low.toNat
                     transactionsLength := resultJson.height.low.toNat
                     transactions := (List.range resultJson.height.low.toNat).map
                       (fun i => transactionEntry i (dat i))
                     blocks := (List.range resultJson.height.low.toNat).map
                       (fun i => blockEntry i (blk i)) }
                 success := true }
             logged := [] } := by
  rw [allBlocks_of_status srv network chainInfoBytes resultJson hconn hinfo hdec]
  rw [indexLoop_all_ok srv (network.getContract "qscc") blk dat resultJson.height.low.toNat
    (resultJson.height.low - 1 + 1).toNat 0 _ (resultJson.height.low - 1) (by omega)
    (by push_cast; omega) (fun j _ h2 => hok j (by omega))]
  simp [List.range_eq_range']

/-- A run in which iteration `k` is the first that throws: nothing is sent, the
error is logged, and the requests stop at `k`. -/
theorem allBlocks_first_failure (srv : Server) (network : Network) (chainInfoBytes : Bytes)
    (resultJson : BlockchainInfo) (blk : Nat → Block) (dat : Nat → BlockData) (k : Nat)
    (e : JsError)
    (hconn : srv.connectToNetwork = .ok network)
    (hinfo : (network.getContract "qscc").evaluateTransaction "GetChainInfo" ["mychannel"] =
      .ok chainInfoBytes)
    (hdec : srv.decodeBlockchainInfo chainInfoBytes = .ok resultJson)
    (hk : (k : Int) < resultJson.height.low)
    (hok : ∀ j, j < k → loadBlock srv (network.getContract "qscc") j = .ok (blk j, dat j))
    (hbad : loadBlock srv (network.getContract "qscc") k = .error e) :
    allBlocks srv =
      some { calls := chainInfoCall :: (List.range (k + 1)).map blockCall
             response := none
             logged := [e] } := by
  rw [allBlocks_of_status srv network chainInfoBytes resultJson hconn hinfo hdec]
  rw [indexLoop_first_failure srv (network.getContract "qscc") blk dat e k
    (resultJson.height.low - 1 + 1).toNat 0 k _ (resultJson.height.low - 1) (by omega)
    (by omega) (by omega) (fun j _ h2 => hok j h2) hbad]
  simp [List.range_eq_range']

/-- Every run that got the status requests the blocks `0, 1, ...` in order, at
most `height.low` of them, and exactly that many when it ends with a response. -/
theorem allBlocks_calls (srv : Server) (network : Network) (chainInfoBytes : Bytes)
    (resultJson : BlockchainInfo)
    (hconn : srv.connectToNetwork = .ok network)
    (hinfo : (network.getContract "qscc").evaluateTransaction "GetChainInfo" ["mychannel"] =
      .ok chainInfoBytes)
    (hdec : srv.decodeBlockchainInfo chainInfoBytes = .ok resultJson) :
    ∃ (o : IndexOutcome) (n : Nat), allBlocks srv = some o ∧
      o.calls = chainInfoCall :: (List.range n).map blockCall ∧
      n ≤ resultJson.height.low.toNat ∧
      (o.response ≠ none → n = resultJson.height.low.toNat) := by
  rw [allBlocks_of_status srv network chainInfoBytes resultJson hconn hinfo hdec]
  cases hl : indexLoop srv (network.getContract "qscc") (resultJson.height.low - 1)
      (resultJson.height.low - 1 + 1).toNat 0
      { calls := [chainInfoCall], transactions := [], blocks := [] } with
  | none =>
    have h := indexLoop_isSome srv (network.getContract "qscc") (resultJson.height.low - 1)
      (resultJson.height.low - 1 + 1).toNat 0
      { calls := [chainInfoCall], transactions := [], blocks := [] } (by omega)
    rw [hl] at h
    cases h
  | some r =>
    obtain ⟨n, hn, hcalls, hall⟩ := indexLoop_calls srv (network.getContract "qscc")
      (resultJson.height.low - 1) _ 0 _ r hl
    obtain ⟨st, thrown⟩ := r
    have hcalls2 : st.calls = chainInfoCall :: (List.range n).map blockCall := by
      rw [List.range_eq_range']
      exact hcalls
    cases thrown with
    | some e =>
      exact ⟨_, n, rfl, hcalls2, by omega, fun h => absurd rfl h⟩
    | none =>
      refine ⟨_, n, rfl, hcalls2, by omega, fun _ => ?_⟩
      have := hall rfl
      omega

/-- The handler always ends: the iteration bound it passes to the loop suffices. -/
theorem allBlocks_isSome (srv : Server) : (allBlocks srv).isSome = true := by
  unfold allBlocks
  cases hconn : srv.connectToNetwork with
  | error e => rfl
  | ok network =>
    dsimp only
    cases hinfo : (network.getContract "qscc").evaluateTransaction "GetChainInfo" ["mychannel"] with
    | error e => rfl
    | ok chainInfoBytes =>
      dsimp only
      cases hdec : srv.decodeBlockchainInfo chainInfoBytes with
      | error e => rfl
      | ok resultJson =>
        dsimp only
        have h := indexLoop_isSome srv (network.getContract "qscc") (resultJson.height.low - 1)
          (resultJson.height.low - 1 + 1).toNat 0
          { calls := [chainInfoCall], transactions := [], blocks := [] } (by omega)
        cases hl : indexLoop srv (network.getContract "qscc") (resultJson.height.low - 1)
          (resultJson.height.low - 1 + 1).toNat 0
          { calls := [chainInfoCall], transactions := [], blocks := [] } with
        | none => rw [hl] at h; cases h
        | some r =>
          obtain ⟨st, thrown⟩ := r
          cases thrown <;> rfl

/-! ### Claims about `/all/blocks` -/

/-- C1 (amended): for every chain height `N` below `2 ^ 31` reported by the
status response, when every block retrieval and decode succeeds and every
decoded block carries its `data` field, the handler answers with exactly `N`
block entries (`blocksLength = N`), the entry at position `i` has
`blockId = i` (the ids are `0, 1, ..., N - 1`), and the ledger was asked for
the blocks one after the other in that order, with argument `String(i)`. -/
theorem allBlocks_returns_every_block (srv : Server) (network : Network)
    (chainInfoBytes : Bytes) (resultJson : BlockchainInfo) (blk : Nat → Block)
    (dat : Nat → BlockData) (N : Nat)
    (hconn : srv.connectToNetwork = .ok network)
    (hinfo : (network.getContract "qscc").evaluateTransaction "GetChainInfo" ["mychannel"] =
      .ok chainInfoBytes)
    (hdec : srv.decodeBlockchainInfo chainInfoBytes = .ok resultJson)
    (hN : resultJson.height = Long.fromValue N) (hlt : N < 2 ^ 31)
    (hok : ∀ i, i < N → fetchBlock srv (network.getContract "qscc") i = .ok (blk i))
    (hdata : ∀ i, i < N → (blk i).data = some (dat i)) :
    ∃ r : IndexResponse,
      allBlocks srv =
        some { calls := chainInfoCall :: (List.range N).map blockCall
               response := some r
               logged := [] } ∧
      r.data.blocksLength = N ∧ r.data.blocks.length = N ∧
      r.data.blocks.map BlockEntry.blockId = List.range N ∧
      r.data.blocks = (List.range N).map (fun i => blockEntry i (blk i)) := by
  have hlow : resultJson.height.low = (N : Int) := by rw [hN]; exact low_fromValue_of_lt N hlt
  have hrun := allBlocks_all_ok srv network chainInfoBytes resultJson blk dat hconn hinfo hdec
    (fun i hi => loadBlock_of_fetch srv _ i (blk i) (dat i) (hok i (by omega))
      (hdata i (by omega)))
  rw [hlow, Int.toNat_ofNat] at hrun
  refine ⟨_, hrun, rfl, by simp, ?_, rfl⟩
  simp only [List.map_map]
  exact List.map_id _

/-- C1, witness: a chain of three blocks. -/
theorem allBlocks_returns_every_block_witness :
    ∃ r : IndexResponse,
      allBlocks (sampleServer 3 none) =
        some { calls := chainInfoCall :: (List.range 3).map blockCall
               response := some r
               logged := [] } ∧
      r.data.blocksLength = 3 ∧ r.data.blocks.length = 3 ∧
      r.data.blocks.map BlockEntry.blockId = List.range 3 ∧
      r.data.blocks =
        (List.range 3).map (fun i => blockEntry i (sampleBlock i (List.replicate (i + 1) [7]))) :=
  allBlocks_returns_every_block (sampleServer 3 none) { getContract := fun _ => sampleContract }
    [0] { height := Long.fromValue 3, currentBlockHash := [], previousBlockHash := [] }
    (fun i => sampleBlock i (List.replicate (i + 1) [7]))
    (fun i => { data := List.replicate (i + 1) [7] }) 3 rfl rfl rfl rfl (by decide)
    (fun i hi => by interval_cases i <;> rfl) (fun _ _ => rfl)

/-- C1, counterexample: the status reports height `2 ^ 32` and every block can
be retrieved and decoded, yet the handler reads `height.low = 0`, asks for no
block and answers with `blocksLength = 0`. -/
theorem allBlocks_height_two_pow_32 :
    (uniformServer (2 ^ 32) []).decodeBlockchainInfo [0] =
      .ok { height := Long.fromValue (2 ^ 32), currentBlockHash := [], previousBlockHash := [] } ∧
    (∀ i, fetchBlock (uniformServer (2 ^ 32) [])
      { evaluateTransaction := fun _ _ => .ok [0], submitTransaction := fun _ _ => .ok [] } i =
        .ok (sampleBlock 0 [])) ∧
    allBlocks (uniformServer (2 ^ 32) []) =
      some { calls := [chainInfoCall]
             response := some { data := { blocksLength := 0, transactionsLength := 0,
                                          transactions := [], blocks := [] }
                                success := true }
             logged := [] } ∧
    (0 : Nat) ≠ 2 ^ 32 :=
  ⟨rfl, fun _ => rfl, by decide, by decide⟩

/-- A block that decodes without its `data` field: on a chain of height 1 whose
block 0 is served as a payload of zero bytes, the retrieval and the decoding
succeed, reading `block.data.data` throws, and the handler sends nothing. -/
theorem allBlocks_block_without_data :
    fetchBlock (emptyPayloadServer 1)
      { evaluateTransaction := fun _ _ => .ok [], submitTransaction := fun _ _ => .ok [] } 0 =
        .ok { header := none, data := none, metadata := none } ∧
    allBlocks (emptyPayloadServer 1) =
      some { calls := [chainInfoCall, blockCall 0]
             response := none
             logged := [nullDataError] } :=
  ⟨rfl, by decide⟩

/-- C2: when the status response reports chain height 0 the handler retrieves
no block and answers with an empty block sequence and an empty transaction
sequence, `blocksLength = 0` and `transactionsLength = 0`. -/
theorem allBlocks_height_zero (srv : Server) (network : Network)
    (chainInfoBytes : Bytes) (resultJson : BlockchainInfo)
    (hconn : srv.connectToNetwork = .ok network)
    (hinfo : (network.getContract "qscc").evaluateTransaction "GetChainInfo" ["mychannel"] =
      .ok chainInfoBytes)
    (hdec : srv.decodeBlockchainInfo chainInfoBytes = .ok resultJson)
    (h0 : resultJson.height = Long.fromValue 0) :
    allBlocks srv =
      some { calls := [chainInfoCall]
             response := some { data := { blocksLength := 0, transactionsLength := 0,
                                          transactions := [], blocks := [] }
                                success := true }
             logged := [] } ∧
    retrievals [chainInfoCall] = 0 := by
  have hlow : resultJson.height.low = 0 := by rw [h0]; rfl
  have hrun := allBlocks_all_ok srv network chainInfoBytes resultJson (fun _ => default)
    (fun _ => default) hconn hinfo hdec (fun i hi => by omega)
  rw [hlow] at hrun
  exact ⟨hrun, rfl⟩

/-- C2, witness: an empty chain. -/
theorem allBlocks_height_zero_witness :
    allBlocks (sampleServer 0 none) =
      some { calls := [chainInfoCall]
             response := some { data := { blocksLength := 0, transactionsLength := 0,
                                          transactions := [], blocks := [] }
                                success := true }
             logged := [] } ∧
    retrievals [chainInfoCall] = 0 :=
  allBlocks_height_zero (sampleServer 0 none) { getContract := fun _ => sampleContract }
    [0] { height := Long.fromValue 0, currentBlockHash := [], previousBlockHash := [] }
    rfl rfl rfl rfl

/-- What the handler puts in `transactions`: for a chain of height `N` below
`2 ^ 31` whose blocks all decode with their data, one entry per block, entry
`i` holding the whole list `block.data.data` of block `i`; its length is the
number of blocks. -/
theorem allBlocks_transactions_per_block (srv : Server) (network : Network)
    (chainInfoBytes : Bytes) (resultJson : BlockchainInfo) (blk : Nat → Block)
    (dat : Nat → BlockData) (N : Nat)
    (hconn : srv.connectToNetwork = .ok network)
    (hinfo : (network.getContract "qscc").evaluateTransaction "GetChainInfo" ["mychannel"] =
      .ok chainInfoBytes)
    (hdec : srv.decodeBlockchainInfo chainInfoBytes = .ok resultJson)
    (hN : resultJson.height = Long.fromValue N) (hlt : N < 2 ^ 31)
    (hok : ∀ i, i < N → fetchBlock srv (network.getContract "qscc") i = .ok (blk i))
    (hdata : ∀ i, i < N → (blk i).data = some (dat i)) :
    ∃ (o : IndexOutcome) (r : IndexResponse),
      allBlocks srv = some o ∧ o.response = some r ∧
      r.data.transactions =
        (List.range N).map (fun i => { txId := i, transaction := (dat i).data }) ∧
      r.data.transactionsLength = N := by
  have hlow : resultJson.height.low = (N : Int) := by rw [hN]; exact low_fromValue_of_lt N hlt
  have hrun := allBlocks_all_ok srv network chainInfoBytes resultJson blk dat hconn hinfo hdec
    (fun i hi => loadBlock_of_fetch srv _ i (blk i) (dat i) (hok i (by omega))
      (hdata i (by omega)))
  rw [hlow, Int.toNat_ofNat] at hrun
  exact ⟨_, _, hrun, rfl, rfl, rfl⟩

/-- C3, the code at the failing input: on a chain of two blocks that hold one
and two raw transaction records, all decoded, the handler reports
`transactionsLength = 2` while the blocks hold three records. -/
theorem allBlocks_transactionsLength_counts_blocks :
    fetchBlock (sampleServer 2 none) sampleContract 0 = .ok (sampleBlock 0 [[7]]) ∧
    fetchBlock (sampleServer 2 none) sampleContract 1 = .ok (sampleBlock 1 [[7], [7]]) ∧
    (allBlocks (sampleServer 2 none)).map
        (fun o => o.response.map (fun r => r.data.transactionsLength)) = some (some 2) ∧
    (sampleBlock 0 [[7]]).data = some { data := [[7]] } ∧
    (sampleBlock 1 [[7], [7]]).data = some { data := [[7], [7]] } ∧
    ([[7]] : List Bytes).length + ([[7], [7]] : List Bytes).length = 3 :=
  ⟨rfl, rfl, by decide, rfl, rfl, rfl⟩

/-- C4: if retrieving or decoding block `k` fails for some `k` below the
height (`k < height.low`, the range of the loop, which is `k < height` for
every height below `2 ^ 31`), the run is aborted at the first block `k' ≤ k`
whose iteration throws: the requests issued are exactly those for blocks
`0, ..., k'`, so no block with a number above `k` is requested, and no
response is sent at all, in particular none holding the blocks accumulated so
far. -/
theorem allBlocks_aborts_on_failure (srv : Server) (network : Network)
    (chainInfoBytes : Bytes) (resultJson : BlockchainInfo) (k : Nat) (e : JsError)
    (hconn : srv.connectToNetwork = .ok network)
    (hinfo : (network.getContract "qscc").evaluateTransaction "GetChainInfo" ["mychannel"] =
      .ok chainInfoBytes)
    (hdec : srv.decodeBlockchainInfo chainInfoBytes = .ok resultJson)
    (hk : (k : Int) < resultJson.height.low)
    (hbad : fetchBlock srv (network.getContract "qscc") k = .error e) :
    ∃ (k' : Nat) (e' : JsError), k' ≤ k ∧
      loadBlock srv (network.getContract "qscc") k' = .error e' ∧
      (k' = k → e' = e) ∧
      allBlocks srv =
        some { calls := chainInfoCall :: (List.range (k' + 1)).map blockCall
               response := none
               logged := [e'] } := by
  classical
  have hload : loadBlock srv (network.getContract "qscc") k = .error e :=
    loadBlock_of_fetch_error srv _ k e hbad
  have hex : ∃ j, ∃ e1, loadBlock srv (network.getContract "qscc") j = .error e1 :=
    ⟨k, e, hload⟩
  obtain ⟨e', he'⟩ := Nat.find_spec hex
  have hle : Nat.find hex ≤ k := Nat.find_min' hex ⟨e, hload⟩
  refine ⟨Nat.find hex, e', hle, he', ?_, ?_⟩
  · intro hkk
    rw [hkk, hload] at he'
    cases he'
    rfl
  refine allBlocks_first_failure srv network chainInfoBytes resultJson
    (fun j => match loadBlock srv (network.getContract "qscc") j with
      | .ok pair => pair.1
      | .error _ => default)
    (fun j => match loadBlock srv (network.getContract "qscc") j with
      | .ok pair => pair.2
      | .error _ => default)
    (Nat.find hex) e' hconn hinfo hdec (by omega) ?_ he'
  intro j hj
  have hnot := Nat.find_min hex hj
  cases hf : loadBlock srv (network.getContract "qscc") j with
  | error e1 => exact absurd ⟨e1, hf⟩ hnot
  | ok pair => simp only [hf]

/-- C4, witness: a chain of three blocks whose block 1 does not decode. -/
theorem allBlocks_aborts_on_failure_witness :
    ∃ (k' : Nat) (e' : JsError), k' ≤ 1 ∧
      loadBlock (sampleServer 3 (some 1)) sampleContract k' = .error e' ∧
      (k' = 1 → e' = { message := "index out of range" }) ∧
      allBlocks (sampleServer 3 (some 1)) =
        some { calls := chainInfoCall :: (List.range (k' + 1)).map blockCall
               response := none
               logged := [e'] } :=
  allBlocks_aborts_on_failure (sampleServer 3 (some 1))
    { getContract := fun _ => sampleContract }
    [0] { height := Long.fromValue 3, currentBlockHash := [], previousBlockHash := [] }
    1 { message := "index out of range" } rfl rfl rfl (by decide) rfl

/-- C5, the code at the failing input: on a chain of three blocks whose block 1
does not decode, the handler sends no response; the error is only written to
the console, as it was thrown, without the block number. -/
theorem allBlocks_failure_sends_nothing :
    allBlocks (sampleServer 3 (some 1)) =
      some { calls := [chainInfoCall, blockCall 0, blockCall 1]
             response := none
             logged := [{ message := "index out of range" }] } := by
  decide

/-- C10 (amended): the number of blocks the handler retrieves is bounded by the
signed low 32-bit word of the height in the status response, and fixed by it
in every run in which no iteration of the loop throws, that is, in every run
that ends with a response.  In any run it is at most `height.low` if that is
positive and 0 otherwise; in a run that ends with a response it is exactly
that number, hence the chain height itself for every height below `2 ^ 31`,
and the same number for two status responses with the same low word.  A run
ends with a response as soon as every block below `height.low` is retrieved
and decoded with its data. -/
theorem allBlocks_retrievals_low_word (srv : Server) (network : Network)
    (chainInfoBytes : Bytes) (resultJson : BlockchainInfo)
    (hconn : srv.connectToNetwork = .ok network)
    (hinfo : (network.getContract "qscc").evaluateTransaction "GetChainInfo" ["mychannel"] =
      .ok chainInfoBytes)
    (hdec : srv.decodeBlockchainInfo chainInfoBytes = .ok resultJson) :
    ∃ o : IndexOutcome, allBlocks srv = some o ∧
      ((retrievals o.calls : Int) ≤
        if 0 < resultJson.height.low then resultJson.height.low else 0) ∧
      (o.response ≠ none →
        (retrievals o.calls : Int) =
          if 0 < resultJson.height.low then resultJson.height.low else 0) ∧
      (∀ H : Nat, H < 2 ^ 31 → resultJson.height = Long.fromValue H → o.response ≠ none →
        retrievals o.calls = H) ∧
      (∀ (srv2 : Server) (network2 : Network) (bytes2 : Bytes) (resultJson2 : BlockchainInfo),
        srv2.connectToNetwork = .ok network2 →
        (network2.getContract "qscc").evaluateTransaction "GetChainInfo" ["mychannel"] =
          .ok bytes2 →
        srv2.decodeBlockchainInfo bytes2 = .ok resultJson2 →
        resultJson2.height.low = resultJson.height.low →
        ∃ o2 : IndexOutcome, allBlocks srv2 = some o2 ∧
          (o.response ≠ none → o2.response ≠ none →
            retrievals o2.calls = retrievals o.calls)) ∧
      ((∀ i : Nat, (i : Int) < resultJson.height.low →
          ∃ block blockData, fetchBlock srv (network.getContract "qscc") i = .ok block ∧
            block.data = some blockData) →
        o.response ≠ none) := by
  obtain ⟨o, n, hrun, hcalls, hn, hall⟩ :=
    allBlocks_calls srv network chainInfoBytes resultJson hconn hinfo hdec
  have hret : retrievals o.calls = n := by rw [hcalls, retrievals_blockCalls]
  refine ⟨o, hrun, ?_, ?_, ?_, ?_, ?_⟩
  · rw [hret]
    split <;> omega
  · intro hresp
    rw [hret, hall hresp]
    split <;> omega
  · intro H hH hval hresp
    rw [hret, hall hresp, hval, low_fromValue_of_lt H hH, Int.toNat_ofNat]
  · intro srv2 network2 bytes2 resultJson2 hconn2 hinfo2 hdec2 hsame
    obtain ⟨o2, n2, hrun2, hcalls2, _, hall2⟩ :=
      allBlocks_calls srv2 network2 bytes2 resultJson2 hconn2 hinfo2 hdec2
    refine ⟨o2, hrun2, fun hresp hresp2 => ?_⟩
    rw [hret, hcalls2, retrievals_blockCalls, hall hresp, hall2 hresp2, hsame]
  · intro hok
    classical
    have hex : ∀ i : Nat, ∃ pair : Block × BlockData, (i : Int) < resultJson.height.low →
        loadBlock srv (network.getContract "qscc") i = .ok pair := by
      intro i
      by_cases hi : (i : Int) < resultJson.height.low
      · obtain ⟨block, blockData, hf, hd⟩ := hok i hi
        exact ⟨(block, blockData), fun _ => loadBlock_of_fetch srv _ i block blockData hf hd⟩
      · exact ⟨default, fun h => absurd h hi⟩
    choose pair hpair using hex
    have hfull := allBlocks_all_ok srv network chainInfoBytes resultJson
      (fun i => (pair i).1) (fun i => (pair i).2) hconn hinfo hdec hpair
    rw [hrun] at hfull
    cases hfull
    exact fun h => by cases h

/-- C10, witness: a status reporting height `2 ^ 32 + 2`, whose low word is 2. -/
theorem allBlocks_retrievals_low_word_witness :
    ∃ o : IndexOutcome, allBlocks (uniformServer (2 ^ 32 + 2) []) = some o ∧
      ((retrievals o.calls : Int) ≤
        if 0 < (Long.fromValue (2 ^ 32 + 2)).low then (Long.fromValue (2 ^ 32 + 2)).low else 0) ∧
      (o.response ≠ none →
        (retrievals o.calls : Int) =
          if 0 < (Long.fromValue (2 ^ 32 + 2)).low then (Long.fromValue (2 ^ 32 + 2)).low
          else 0) ∧
      (∀ H : Nat, H < 2 ^ 31 →
        ({ height := Long.fromValue (2 ^ 32 + 2), currentBlockHash := [],
           previousBlockHash := [] } : BlockchainInfo).height = Long.fromValue H →
        o.response ≠ none → retrievals o.calls = H) ∧
      (∀ (srv2 : Server) (network2 : Network) (bytes2 : Bytes) (resultJson2 : BlockchainInfo),
        srv2.connectToNetwork = .ok network2 →
        (network2.getContract "qscc").evaluateTransaction "GetChainInfo" ["mychannel"] =
          .ok bytes2 →
        srv2.decodeBlockchainInfo bytes2 = .ok resultJson2 →
        resultJson2.height.low =
          ({ height := Long.fromValue (2 ^ 32 + 2), currentBlockHash := [],
             previousBlockHash := [] } : BlockchainInfo).height.low →
        ∃ o2 : IndexOutcome, allBlocks srv2 = some o2 ∧
          (o.response ≠ none → o2.response ≠ none →
            retrievals o2.calls = retrievals o.calls)) ∧
      ((∀ i : Nat, (i : Int) <
          ({ height := Long.fromValue (2 ^ 32 + 2), currentBlockHash := [],
             previousBlockHash := [] } : BlockchainInfo).height.low →
          ∃ block blockData,
            fetchBlock (uniformServer (2 ^ 32 + 2) [])
              (({ getContract := fun _ =>
                    { evaluateTransaction := fun _ _ => .ok [0]
                      submitTransaction := fun _ _ => .ok [] } } : Network).getContract "qscc")
              i = .ok block ∧
            block.data = some blockData) →
        o.response ≠ none) :=
  allBlocks_retrievals_low_word (uniformServer (2 ^ 32 + 2) [])
    { getContract := fun _ =>
        { evaluateTransaction := fun _ _ => .ok [0], submitTransaction := fun _ _ => .ok [] } }
    [0] { height := Long.fromValue (2 ^ 32 + 2), currentBlockHash := [], previousBlockHash := [] }
    rfl rfl rfl

/-- C10, counterexample: the status reports height 3, whose low word is 3, and
block 1 does not decode; the handler retrieves two blocks, not three. -/
theorem allBlocks_retrievals_failed_run :
    (sampleServer 3 (some 1)).decodeBlockchainInfo [0] =
      .ok { height := Long.fromValue 3, currentBlockHash := [], previousBlockHash := [] } ∧
    (Long.fromValue 3).low = 3 ∧
    (allBlocks (sampleServer 3 (some 1))).map (fun o => retrievals o.calls) = some 2 ∧
    (2 : Int) ≠ (if 0 < (Long.fromValue 3).low then (Long.fromValue 3).low else 0) :=
  ⟨rfl, by decide, by decide, by decide⟩

/-! ### Claims about `index.js` -/

/-- C6: for every current time `now` (milliseconds), the four option callbacks
configured on the gateway return `deadline = now + budget`, with budgets
evaluate 5000, endorse 15000, submit 5000 and commitStatus 60000; so each
deadline is strictly later than the instant it is computed at, and it is
computed from the time of the call, whatever objects the gateway was connected
with: a later call gets a later deadline. -/
theorem connectOptions_deadlines (client : Client) (identity : Identity) (signer : Signer)
    (now : Nat) :
    ((connectOptions client identity signer).evaluateOptions now).deadline = now + 5000 ∧
    ((connectOptions client identity signer).endorseOptions now).deadline = now + 15000 ∧
    ((connectOptions client identity signer).submitOptions now).deadline = now + 5000 ∧
    ((connectOptions client identity signer).commitStatusOptions now).deadline = now + 60000 ∧
    now < ((connectOptions client identity signer).evaluateOptions now).deadline ∧
    now < ((connectOptions client identity signer).endorseOptions now).deadline ∧
    now < ((connectOptions client identity signer).submitOptions now).deadline ∧
    now < ((connectOptions client identity signer).commitStatusOptions now).deadline ∧
    (∀ later : Nat, now < later →
      ((connectOptions client identity signer).evaluateOptions now).deadline <
        ((connectOptions client identity signer).evaluateOptions later).deadline ∧
      ((connectOptions client identity signer).endorseOptions now).deadline <
        ((connectOptions client identity signer).endorseOptions later).deadline ∧
      ((connectOptions client identity signer).submitOptions now).deadline <
        ((connectOptions client identity signer).submitOptions later).deadline ∧
      ((connectOptions client identity signer).commitStatusOptions now).deadline <
        ((connectOptions client identity signer).commitStatusOptions later).deadline) := by
  refine ⟨rfl, rfl, rfl, rfl, ?_, ?_, ?_, ?_, ?_⟩
  · show now < now + 5000
    omega
  · show now < now + 15000
    omega
  · show now < now + 5000
    omega
  · show now < now + 60000
    omega
  · intro later h
    show now + 5000 < later + 5000 ∧ now + 15000 < later + 15000 ∧
      now + 5000 < later + 5000 ∧ now + 60000 < later + 60000
    omega

/-- C7: for every commit status the asynchronous submit of `transferAssetAsync`
resolves to, the function completes normally if and only if `status.successful`
is true; when it is false the function throws an error whose message is
`Transaction <id> failed to commit with status code <code>`, which contains
both the transaction id and the status code of the status. -/
theorem transferAssetAsync_status (env : SampleEnv) (contract : GatewayContract)
    (commit : Commit) (status : Status)
    (hsubmit : contract.submitAsync "TransferAsset" [assetId env, "Saptha"] = .ok commit)
    (hstatus : commit.getStatus = .ok status) :
    ((transferAssetAsync env contract).result = .ok () ↔ status.successful = true) ∧
    (status.successful = false →
      (transferAssetAsync env contract).result =
        .error { message := "Transaction " ++ status.transactionId ++
          " failed to commit with status code " ++ toString status.code } ∧
      status.transactionId.data <:+: (commitFailureMessage status).data ∧
      (toString status.code).data <:+: (commitFailureMessage status).data) := by
  unfold transferAssetAsync
  rw [hsubmit]
  dsimp only
  rw [hstatus]
  dsimp only
  cases hs : status.successful with
  | true => simp
  | false =>
    simp only [Bool.not_false, if_true, Bool.false_eq_true, iff_false, true_implies]
    refine ⟨(fun h => by cases h), rfl, ?_, ?_⟩
    · unfold commitFailureMessage
      simp only [String.data_append]
      exact ⟨"Transaction ".data,
        " failed to commit with status code ".data ++ (toString status.code).data, by simp⟩
    · unfold commitFailureMessage
      simp only [String.data_append]
      exact ⟨"Transaction ".data ++ status.transactionId.data ++
        " failed to commit with status code ".data, [], by simp⟩

/-- C7, witness: a commit rejected with code 11 (an MVCC read conflict). -/
theorem transferAssetAsync_status_witness :
    ((transferAssetAsync (sampleEnv true ⟨"tx1", false, 11⟩)
        (sampleGatewayContract ⟨"tx1", false, 11⟩)).result = .ok () ↔
      (⟨"tx1", false, 11⟩ : Status).successful = true) ∧
    ((⟨"tx1", false, 11⟩ : Status).successful = false →
      (transferAssetAsync (sampleEnv true ⟨"tx1", false, 11⟩)
        (sampleGatewayContract ⟨"tx1", false, 11⟩)).result =
        .error { message := "Transaction " ++ (⟨"tx1", false, 11⟩ : Status).transactionId ++
          " failed to commit with status code " ++ toString (⟨"tx1", false, 11⟩ : Status).code } ∧
      (⟨"tx1", false, 11⟩ : Status).transactionId.data <:+:
        (commitFailureMessage ⟨"tx1", false, 11⟩).data ∧
      (toString (⟨"tx1", false, 11⟩ : Status).code).data <:+:
        (commitFailureMessage ⟨"tx1", false, 11⟩).data) :=
  transferAssetAsync_status (sampleEnv true ⟨"tx1", false, 11⟩)
    (sampleGatewayContract ⟨"tx1", false, 11⟩)
    { getResult := [84, 111, 109], getStatus := .ok ⟨"tx1", false, 11⟩ } ⟨"tx1", false, 11⟩
    rfl rfl

/-- Once the gateway is connected, whatever the ledger operations do, `main`
ends by closing the gateway and then the client. -/
theorem main_closes_after_connect (env : SampleEnv) (client : Client) (identity : Identity)
    (signer : Signer) (gateway : Gateway)
    (hclient : env.newGrpcConnection = .ok client) (hid : env.newIdentity = .ok identity)
    (hsigner : env.newSigner = .ok signer)
    (hgw : env.connect (connectOptions client identity signer) = .ok gateway) :
    ∃ before, (main env).events = before ++ [.gatewayClosed, .clientClosed] := by
  unfold main
  rw [hclient]
  dsimp only
  rw [hid]
  dsimp only
  rw [hsigner]
  dsimp only
  rw [hgw]
  exact ⟨_, rfl⟩

/-- C9, the code at the failing input: the transport client is obtained, then
loading the identity fails; `main` rejects with that error and the client is
never closed. -/
theorem main_identity_failure_leaves_client_open :
    (sampleEnv false ⟨"tx1", true, 0⟩).newGrpcConnection = .ok { endpoint := "localhost:7051" } ∧
    (main (sampleEnv false ⟨"tx1", true, 0⟩)).events = [.grpcConnected] ∧
    (main (sampleEnv false ⟨"tx1", true, 0⟩)).result =
      .error { message := "No files in directory: signcerts" } ∧
    MainEvent.clientClosed ∉ (main (sampleEnv false ⟨"tx1", true, 0⟩)).events := by
  refine ⟨rfl, rfl, rfl, ?_⟩
  decide

/-! ### Claims about `/multipleadd` -/

theorem firstRejection_of_all_ok (ps : List (Except JsError Bytes))
    (h : ∀ p ∈ ps, ∃ b, p = .ok b) : firstRejection ps = none := by
  induction ps with
  | nil => rfl
  | cons p rest ih =>
    obtain ⟨b, rfl⟩ := h p (List.mem_cons_self _ _)
    rw [firstRejection]
    exact ih (fun q hq => h q (List.mem_cons_of_mem _ hq))

/-- The loop of `createMultipleAssets` when the off-chain store accepts every
object: it runs `n` times, where `n` is what is left of the numeric value of
`numRequests` above the counter, and starts one submission per iteration. -/
theorem createLoop_all_stored (srv : Server) (contract : Contract) (numRequests : JsValue)
    (m : Int) (cidOf : AssetData → String)
    (hnum : numRequests.toNumber = some m)
    (hadd : ∀ d, srv.ipfsAdd d = .ok (cidOf d)) :
    ∀ (n fuel i : Nat) (st : BatchState), n ≤ fuel → (m - (i : Int)).toNat = n →
      createLoop srv contract numRequests fuel i st =
        some ({ submitted := st.submitted ++ (List.range' i n).map (fun j =>
                  { chaincode := "basic", fcn := "CreateAsset",
                    args := createAssetArgs srv j (cidOf (assetDataOf srv j)) })
                transactionPromises := st.transactionPromises ++ (List.range' i n).map (fun j =>
                  contract.submitTransaction "CreateAsset"
                    (createAssetArgs srv j (cidOf (assetDataOf srv j)))) }, none) := by
  intro n
  induction n with
  | zero =>
    intro fuel i st _ hn
    have hex : numRequests.exceeds i = false := by
      unfold JsValue.exceeds
      rw [hnum]
      simp only [decide_eq_false_iff_not]
      omega
    cases fuel with
    | zero => rw [createLoop, hex]; simp
    | succ fuel => rw [createLoop, hex]; simp
  | succ n ih =>
    intro fuel i st hfuel hn
    obtain ⟨fuel, rfl⟩ : ∃ f, fuel = f + 1 := ⟨fuel - 1, by omega⟩
    have hex : numRequests.exceeds i = true := by
      unfold JsValue.exceeds
      rw [hnum]
      simp only [decide_eq_true_eq]
      omega
    rw [createLoop, hex]
    simp only [if_true]
    have hstore := hadd (assetDataOf srv i)
    unfold assetDataOf at hstore
    rw [hstore]
    dsimp only
    rw [ih fuel (i + 1) _ (by omega) (by push_cast; omega)]
    simp [List.range'_succ, createAssetArgs, assetDataOf]

/-- C8 (amended): for every request handled by `/multipleadd` whose
`numRequests` is absent, `null`, `false` or a non-negative integer, and in
which the off-chain store and all submissions succeed, the answer is
`n assets added successfully.` with `n = numRequests`, or 100 when that value
is absent or falsy, and `n` is the number of `CreateAsset` transactions that
`createMultipleAssets` submitted to the contract. -/
theorem multipleAdd_reports_submitted (srv : Server) (network : Network)
    (cidOf : AssetData → String) (resOf : List String → Bytes) (numRequests : JsValue)
    (hconn : srv.connectToNetwork = .ok network)
    (hadd : ∀ d, srv.ipfsAdd d = .ok (cidOf d))
    (hsub : ∀ args, (network.getContract "basic").submitTransaction "CreateAsset" args =
      .ok (resOf args))
    (hv : numRequests = .undefined ∨ numRequests = .null ∨ numRequests = .bool false ∨
      ∃ k : Nat, numRequests = .number (k : Int)) :
    ∃ (n : Nat) (o : AddOutcome),
      multipleAdd srv numRequests = some o ∧
      numRequests.orElse (.number 100) = .number (n : Int) ∧
      (numRequests.truthy = false → n = 100) ∧
      o.status = 200 ∧
      o.body = .message (toString n ++ " assets added successfully.") ∧
      o.submitted.length = n ∧
      (∀ c ∈ o.submitted, c.chaincode = "basic" ∧ c.fcn = "CreateAsset") := by
  have hn : ∃ n : Nat, numRequests.orElse (.number 100) = .number (n : Int) ∧
      (numRequests.truthy = false → n = 100) := by
    rcases hv with h | h | h | ⟨k, h⟩
    · exact ⟨100, by rw [h]; rfl, fun _ => rfl⟩
    · exact ⟨100, by rw [h]; rfl, fun _ => rfl⟩
    · exact ⟨100, by rw [h]; rfl, fun _ => rfl⟩
    · subst h
      cases k with
      | zero => exact ⟨100, rfl, fun _ => rfl⟩
      | succ k =>
        refine ⟨k + 1, ?_, ?_⟩
        · unfold JsValue.orElse
          have ht : (JsValue.number ((k + 1 : Nat) : Int)).truthy = true := by
            unfold JsValue.truthy
            simp only [bne_iff_ne, ne_eq]
            omega
          rw [ht]
          rfl
        · intro hf
          unfold JsValue.truthy at hf
          simp only [bne_eq_false_iff_eq] at hf
          omega
  obtain ⟨n, hor, hfalsy⟩ := hn
  have hloop := createLoop_all_stored srv (network.getContract "basic")
    (numRequests.orElse (.number 100)) (n : Int) cidOf (by rw [hor]; rfl) hadd n n 0
    { submitted := [], transactionPromises := [] } (le_refl n) (by omega)
  have hall : firstRejection ((List.range' 0 n).map (fun j =>
      (network.getContract "basic").submitTransaction "CreateAsset"
        (createAssetArgs srv j (cidOf (assetDataOf srv j))))) = none := by
    apply firstRejection_of_all_ok
    intro p hp
    obtain ⟨j, _, rfl⟩ := List.mem_map.mp hp
    exact ⟨_, hsub _⟩
  have hrun : multipleAdd srv numRequests =
      some { submitted := (List.range' 0 n).map (fun j =>
               { chaincode := "basic", fcn := "CreateAsset",
                 args := createAssetArgs srv j (cidOf (assetDataOf srv j)) })
             status := 200
             body := .message (toString n ++ " assets added successfully.") } := by
    unfold multipleAdd
    rw [hconn]
    dsimp only
    unfold createMultipleAssets
    have hfuel : ((numRequests.orElse (.number 100)).toNumber.getD 0).toNat = n := by
      rw [hor]
      simp [JsValue.toNumber]
    rw [hfuel, hloop]
    simp only [List.nil_append]
    rw [hall, hor]
    rfl
  refine ⟨n, _, hrun, hor, hfalsy, rfl, rfl, by simp, ?_⟩
  intro c hc
  obtain ⟨j, _, rfl⟩ := List.mem_map.mp hc
  exact ⟨rfl, rfl⟩

/-- C8, witness: a request asking for two assets. -/
theorem multipleAdd_reports_submitted_witness :
    ∃ (n : Nat) (o : AddOutcome),
      multipleAdd (uniformServer 0 []) (.number 2) = some o ∧
      (JsValue.number 2).orElse (.number 100) = .number (n : Int) ∧
      ((JsValue.number 2).truthy = false → n = 100) ∧
      o.status = 200 ∧
      o.body = .message (toString n ++ " assets added successfully.") ∧
      o.submitted.length = n ∧
      (∀ c ∈ o.submitted, c.chaincode = "basic" ∧ c.fcn = "CreateAsset") :=
  multipleAdd_reports_submitted (uniformServer 0 [])
    { getContract := fun _ =>
        { evaluateTransaction := fun _ _ => .ok [0], submitTransaction := fun _ _ => .ok [] } }
    (fun _ => "[object Object]") (fun _ => []) (.number 2) rfl (fun _ => rfl) (fun _ => rfl)
    (Or.inr (Or.inr (Or.inr ⟨2, rfl⟩)))

/-- C8, counterexample: for the body `{"numRequests": -3}` the handler answers
`-3 assets added successfully.` although `createMultipleAssets` submitted no
transaction at all. -/
theorem multipleAdd_negative_count :
    multipleAdd (uniformServer 0 []) (.number (-3)) =
      some { submitted := []
             status := 200
             body := .message "-3 assets added successfully." } ∧
    (JsValue.number (-3)).orElse (.number 100) = .number (-3) ∧
    ((-3 : Int) ≠ (([] : List Call).length : Int)) := by
  decide

end Fabric
